import Mathlib

/-!
Verification of the Cubify ranking-normalization and comparison engine.

The definitions below are a shallow embedding of the pure logic in
`src/app/page.tsx` (the single-player analyzer and the two-player compare
page).  Machine floats of the source are modelled with exact rationals;
JavaScript objects keyed by event code are modelled as association lists in
insertion order; `undefined` is modelled with `Option`.
-/

set_option maxHeartbeats 1000000

namespace Cubify

/-- Derived standing for one region, `RegionStats` in `page.tsx` (lines 41-45). -/
structure RegionStats where
  totalCompetitors : ℤ
  percentile : ℚ
  percentDownList : ℚ
  deriving Repr, DecidableEq

/-- `calculateStats` from `page.tsx` lines 106-114: percent down the list is
`rank / totalCompetitors * 100` (not clamped), the percentile is
`(1 - (rank - 1) / totalCompetitors) * 100` clamped into `[0, 100]` with
`Math.max(0, Math.min(100, percentile))`, and `totalCompetitors` is echoed. -/
def calculateStats (rank totalCompetitors : ℤ) : RegionStats :=
  let percentDownList : ℚ := ((rank : ℚ) / (totalCompetitors : ℚ)) * 100
  let percentile : ℚ := (1 - ((rank : ℚ) - 1) / (totalCompetitors : ℚ)) * 100
  { totalCompetitors := totalCompetitors
    percentile := max 0 (min 100 percentile)
    percentDownList := percentDownList }

/-- The zero-value placeholder a region's stats are initialised to in
`fetchStats` (`page.tsx` lines 299-320). -/
def unrankedStats : RegionStats :=
  { totalCompetitors := 0, percentile := 0, percentDownList := 0 }

/-- The spec's `computeStanding` operation: `fetchStats` guards every call of
`calculateStats` with `total > 0 && rank > 0` (`page.tsx` lines 322-348) and
otherwise leaves the zero-value placeholder in place. -/
def computeStanding (rank totalCompetitors : ℤ) : RegionStats :=
  if 0 < totalCompetitors ∧ 0 < rank then calculateStats rank totalCompetitors
  else unrankedStats

/-- The display band a percentile is rendered as in the analyzer cards. -/
inductive Band where
  | top01 : Band
  | top1 : Band
  | topPct : ℚ → Band
  | ranked : Band
  deriving Repr, DecidableEq

/-- National-rank banding, `page.tsx` lines 584-604 (also 660-680 for
averages): rendered only when `rank.nr > 0`; the branch chain is
`percentile >= 99.9`, then `percentile >= 99`, then unconditionally
`Top (100 - percentile)` with no neutral fallback.  The one-decimal string
formatting of the residual percentage is presentational and the exact value
is carried instead. -/
def nrBandDisplay (rank : ℤ) (percentile : ℚ) : Option Band :=
  if 0 < rank then
    some (if (999 : ℚ) / 10 ≤ percentile then Band.top01
      else if 99 ≤ percentile then Band.top1
      else Band.topPct (100 - percentile))
  else none

/-- Continental- and world-rank banding, `page.tsx` lines 605-646 (and the
average copies): rendered only when the rank is positive; the branch chain is
`percentile >= 99.9`, `percentile >= 99`, `percentile > 0`, and otherwise the
neutral label `Ranked`. -/
def crWrBandDisplay (rank : ℤ) (percentile : ℚ) : Option Band :=
  if 0 < rank then
    some (if (999 : ℚ) / 10 ≤ percentile then Band.top01
      else if 99 ≤ percentile then Band.top1
      else if 0 < percentile then Band.topPct (100 - percentile)
      else Band.ranked)
  else none

/-- One discipline's stored result, the `single` and `average` payloads of a
`personal_records` entry in `page.tsx` lines 22-38. -/
structure RankDetail where
  best : ℤ
  world_ranking : ℕ
  continental_ranking : ℕ
  national_ranking : ℕ
  deriving Repr, DecidableEq

/-- One event's entry of `personal_records`: optional `single` and `average`. -/
structure PersonalRecord where
  single : Option RankDetail
  average : Option RankDetail
  deriving Repr, DecidableEq

/-- The `country` field of `PlayerInfo`; `name` comes straight from the raw
`player.country` field and so may be absent. -/
structure Country where
  name : Option String
  iso2 : String
  deriving Repr, DecidableEq

/-- `PlayerInfo` from `page.tsx` lines 11-39; `personal_records` is a
JavaScript object keyed by event code, modelled as an association list in
insertion order. -/
structure PlayerInfo where
  name : String
  country : Country
  continent : String
  wca_id : String
  avatar : Option String
  personal_records : List (String × PersonalRecord)
  deriving Repr, DecidableEq

/-- Lexicographic order on code units, the default comparison JavaScript's
`Array.prototype.sort` applies to the event-code strings. -/
def charListLe : List Char → List Char → Bool
  | [], _ => true
  | _ :: _, [] => false
  | c :: cs, d :: ds =>
    if c.toNat < d.toNat then true
    else if d.toNat < c.toNat then false
    else charListLe cs ds

/-- String comparison used to sort the event codes. -/
def strLe (a b : String) : Bool :=
  charListLe a.data b.data

/-- `getAllEvents` from the compare page (`page.tsx` lines 941-950): the keys
of both players' records are collected into a `Set` and sorted. -/
def getAllEvents (p1 p2 : PlayerInfo) : List String :=
  List.insertionSort (fun a b : String => strLe a b = true)
    ((p1.personal_records.map Prod.fst ++ p2.personal_records.map Prod.fst).dedup)

/-- Outcome of one `getBetterRank` comparison. -/
inductive Winner where
  | player1 : Winner
  | player2 : Winner
  | tie : Winner
  deriving Repr, DecidableEq

/-- JavaScript falsiness of an optional rank number: `undefined` and `0` are
falsy, every other number is truthy. -/
def jsFalsy : Option ℕ → Bool
  | none => true
  | some n => n == 0

/-- `getBetterRank` from the compare page (`page.tsx` lines 952-957).  The
source tests `!rank1` and `!rank2`, so a stored rank of `0` behaves exactly
like an absent rank. -/
def getBetterRank (rank1 rank2 : Option ℕ) : Winner :=
  if jsFalsy rank1 && jsFalsy rank2 then Winner.tie
  else if jsFalsy rank1 then Winner.player2
  else if jsFalsy rank2 then Winner.player1
  else
    let r1 := rank1.getD 0
    let r2 := rank2.getD 0
    if r1 < r2 then Winner.player1
    else if r1 > r2 then Winner.player2
    else Winner.tie

/-- Points both sides earn from one discipline comparison in
`calculatePoints`: when both sides hold a result the winner of
`getBetterRank` on the world rankings gets one point, otherwise nothing. -/
def duelPts (s1 s2 : Option RankDetail) : ℕ × ℕ :=
  match s1, s2 with
  | some d1, some d2 =>
    match getBetterRank (some d1.world_ranking) (some d2.world_ranking) with
    | Winner.player1 => (1, 0)
    | Winner.player2 => (0, 1)
    | Winner.tie => (0, 0)
  | _, _ => (0, 0)

/-- Points one event contributes to the fair tally (`page.tsx` lines
975-992): only when both players hold the event, one single duel and one
average duel. -/
def fairEventPts (event1 event2 : Option PersonalRecord) : ℕ × ℕ :=
  match event1, event2 with
  | some e1, some e2 => duelPts e1.single e2.single + duelPts e1.average e2.average
  | _, _ => (0, 0)

/-- Uncontested points for an event only one player holds (`page.tsx` lines
998-1003): one point per discipline with a result. -/
def soloDisciplinePts (e : PersonalRecord) : ℕ :=
  (if e.single.isSome then 1 else 0) + (if e.average.isSome then 1 else 0)

/-- Points one event contributes to the unfair tally (`page.tsx` lines
994-1017): uncontested points when only one side holds the event, otherwise
the same duels as the fair tally. -/
def unfairEventPts (event1 event2 : Option PersonalRecord) : ℕ × ℕ :=
  match event1, event2 with
  | some e1, none => (soloDisciplinePts e1, 0)
  | none, some e2 => (0, soloDisciplinePts e2)
  | some e1, some e2 => duelPts e1.single e2.single + duelPts e1.average e2.average
  | none, none => (0, 0)

/-- The mutable accumulators of the `allEvents.forEach` loop in
`calculatePoints` (`page.tsx` lines 964-969). -/
structure PointsAcc where
  fairPoints1 : ℕ
  fairPoints2 : ℕ
  unfairPoints1 : ℕ
  unfairPoints2 : ℕ
  fairEvents : List String
  unfairEvents : List String
  deriving Repr, DecidableEq

/-- One iteration of the `allEvents.forEach` loop body of `calculatePoints`
(`page.tsx` lines 971-1018). -/
def pointsStep (p1 p2 : PlayerInfo) (acc : PointsAcc) (eventId : String) : PointsAcc :=
  let event1 := p1.personal_records.lookup eventId
  let event2 := p2.personal_records.lookup eventId
  { fairPoints1 := acc.fairPoints1 + (fairEventPts event1 event2).1
    fairPoints2 := acc.fairPoints2 + (fairEventPts event1 event2).2
    unfairPoints1 := acc.unfairPoints1 + (unfairEventPts event1 event2).1
    unfairPoints2 := acc.unfairPoints2 + (unfairEventPts event1 event2).2
    fairEvents := acc.fairEvents ++ (if event1.isSome && event2.isSome then [eventId] else [])
    unfairEvents := acc.unfairEvents ++ [eventId] }

/-- One tally of `calculatePoints`: both totals and the contributing events. -/
structure Tally where
  player1 : ℕ
  player2 : ℕ
  events : List String
  deriving Repr, DecidableEq

/-- The value `calculatePoints` returns (`page.tsx` lines 1020-1023). -/
structure PointsResult where
  fair : Tally
  unfair : Tally
  deriving Repr, DecidableEq

/-- `calculatePoints` from the compare page (`page.tsx` lines 959-1024),
with both players present (the `null` early-return needs no model since the
UI only renders the score card when both players are loaded). -/
def calculatePoints (p1 p2 : PlayerInfo) : PointsResult :=
  let allEvents := getAllEvents p1 p2
  let acc := allEvents.foldl (pointsStep p1 p2) ⟨0, 0, 0, 0, [], []⟩
  { fair := { player1 := acc.fairPoints1, player2 := acc.fairPoints2, events := acc.fairEvents }
    unfair := { player1 := acc.unfairPoints1, player2 := acc.unfairPoints2, events := acc.unfairEvents } }

/-- Events both players hold, in `getAllEvents` order — the events the fair
tally is restricted to. -/
def sharedEvents (p1 p2 : PlayerInfo) : List String :=
  (getAllEvents p1 p2).filter fun e =>
    (p1.personal_records.lookup e).isSome && (p2.personal_records.lookup e).isSome

/-! Raw federation payload and the two normalizers. -/

/-- The nested `record.rank` object of a raw per-event rank entry. -/
structure RawRanks where
  world : ℕ
  continent : ℕ
  country : ℕ
  deriving Repr, DecidableEq

/-- One entry of `player.rank.singles` or `player.rank.averages`. -/
structure RawRankEntry where
  eventId : String
  best : ℤ
  rank : RawRanks
  deriving Repr, DecidableEq

/-- The raw `player.rank` object: both of its lists may be absent. -/
structure RawRankBlock where
  singles : Option (List RawRankEntry)
  averages : Option (List RawRankEntry)
  deriving Repr, DecidableEq

/-- The raw competitor payload fields the normalizers read; absent JSON
fields are `Option`. -/
structure RawPlayer where
  name : String
  country : Option String
  countryIso2 : Option String
  continent : String
  id : String
  rank : Option RawRankBlock
  deriving Repr, DecidableEq

/-- In-place update of a JavaScript object's entry for `key` (creating a
fresh `{}` entry when absent), as the normalizer loops do on
`personal_records`. -/
def upsertRecord (key : String) (f : PersonalRecord → PersonalRecord) :
    List (String × PersonalRecord) → List (String × PersonalRecord)
  | [] => [(key, f { single := none, average := none })]
  | (k, v) :: rest =>
    if k = key then (k, f v) :: rest else (k, v) :: upsertRecord key f rest

/-- The `RankDetail` a raw rank entry is copied into by the normalizer
loops (`page.tsx` lines 185-190 and 200-205). -/
def entryDetail (e : RawRankEntry) : RankDetail :=
  { best := e.best, world_ranking := e.rank.world,
    continental_ranking := e.rank.continent,
    national_ranking := e.rank.country }

/-- The `personal_records` mapping built by the two `forEach` loops over
`player.rank.singles` and `player.rank.averages` (`page.tsx` lines 178-208
and 857-887), guarded by `player.rank && (player.rank.singles ||
player.rank.averages)`. -/
def buildPersonalRecords (rank : Option RawRankBlock) : List (String × PersonalRecord) :=
  match rank with
  | none => []
  | some blk =>
    if blk.singles.isSome || blk.averages.isSome then
      let afterSingles := (blk.singles.getD []).foldl
        (fun acc e => upsertRecord e.eventId
          (fun pr => { pr with single := some (entryDetail e) }) acc) []
      (blk.averages.getD []).foldl
        (fun acc e => upsertRecord e.eventId
          (fun pr => { pr with average := some (entryDetail e) }) acc) afterSingles
    else []

/-- JavaScript `a || b` on an optional string: `undefined` and the empty
string fall through to `b`. -/
def jsOrString (a : Option String) (b : String) : String :=
  match a with
  | some s => if s = "" then b else s
  | none => b

/-- The `transformedPlayer` construction shared by both pages (`page.tsx`
lines 161-208 and 843-887): country code falls back from `player.country`
through `player.countryIso2` to the sentinel `XX` and is lower-cased; the
avatar URL comes from the separate avatar lookup whose failure means no
avatar. -/
def transformPlayer (player : RawPlayer) (avatarUrl : Option String) : PlayerInfo :=
  let countryIso := jsOrString player.country (jsOrString player.countryIso2 "XX")
  { name := player.name
    country := { name := player.country, iso2 := countryIso.toLower }
    continent := player.continent
    wca_id := player.id
    avatar := avatarUrl
    personal_records := buildPersonalRecords player.rank }

/-- The normalization step of `fetchStats` on the single-player page
(`page.tsx` lines 152-212): an empty or missing name is invalid data, and a
transformed player with zero event records is the hard failure
`No competition records found for this player.` -/
def fetchStatsNormalize (player : RawPlayer) (avatarUrl : Option String) :
    Except String PlayerInfo :=
  if player.name = "" then Except.error "Invalid player data received from API"
  else
    let transformedPlayer := transformPlayer player avatarUrl
    if transformedPlayer.personal_records.isEmpty then
      Except.error "No competition records found for this player."
    else Except.ok transformedPlayer

/-- `fetchPlayerData` from the compare page (`page.tsx` lines 816-890),
restricted to its pure normalization: after the name check the transformed
player is returned unconditionally — there is no empty-records check. -/
def fetchPlayerData (wcaId : String) (player : RawPlayer) (avatarUrl : Option String) :
    Except String PlayerInfo :=
  if player.name = "" then
    Except.error ("Invalid player data received for " ++ wcaId)
  else Except.ok (transformPlayer player avatarUrl)

/-! Helper lemmas. -/

lemma computeStanding_of_pos {rank total : ℤ} (hr : 0 < rank) (ht : 0 < total) :
    computeStanding rank total = calculateStats rank total := by
  simp [computeStanding, hr, ht]

/-! Claim theorems. -/

/-- C1: for every positive rank and positive total, `computeStanding` returns
`percentDownList = rank / totalCompetitors * 100`, a percentile of
`(1 - (rank - 1) / totalCompetitors) * 100` clamped into `[0, 100]`, and
echoes `totalCompetitors` unchanged. -/
theorem computeStanding_positive_formula (rank total : ℤ)
    (hr : 0 < rank) (ht : 0 < total) :
    (computeStanding rank total).percentDownList = (rank : ℚ) / (total : ℚ) * 100
  ∧ (computeStanding rank total).percentile =
      max 0 (min 100 ((1 - ((rank : ℚ) - 1) / (total : ℚ)) * 100))
  ∧ (computeStanding rank total).totalCompetitors = total := by
  rw [computeStanding_of_pos hr ht]
  exact ⟨rfl, rfl, rfl⟩

/-- Witness for C1 at the spec's concrete scenario `computeStanding(50, 100)`. -/
theorem computeStanding_positive_formula_witness :
    ((0 : ℤ) < 50 ∧ (0 : ℤ) < 100)
  ∧ ((computeStanding 50 100).percentDownList = ((50 : ℤ) : ℚ) / ((100 : ℤ) : ℚ) * 100
  ∧ (computeStanding 50 100).percentile =
      max 0 (min 100 ((1 - (((50 : ℤ) : ℚ) - 1) / ((100 : ℤ) : ℚ)) * 100))
  ∧ (computeStanding 50 100).totalCompetitors = 100) :=
  ⟨⟨by decide, by decide⟩, computeStanding_positive_formula 50 100 (by decide) (by decide)⟩

/-- C2: for every non-positive rank or non-positive total, `computeStanding`
returns the zero-value unranked placeholder; it is a total function, so the
query never throws there. -/
theorem computeStanding_nonpositive_placeholder (rank total : ℤ)
    (h : rank ≤ 0 ∨ total ≤ 0) :
    computeStanding rank total =
      { totalCompetitors := 0, percentile := 0, percentDownList := 0 } := by
  have hcond : ¬ (0 < total ∧ 0 < rank) := by omega
  simp [computeStanding, hcond, unrankedStats]

/-- Witness for C2 at rank 0 on a 100-competitor leaderboard. -/
theorem computeStanding_nonpositive_placeholder_witness :
    ((0 : ℤ) ≤ 0 ∨ (100 : ℤ) ≤ 0)
  ∧ computeStanding 0 100 =
      { totalCompetitors := 0, percentile := 0, percentDownList := 0 } :=
  ⟨Or.inl (by decide), computeStanding_nonpositive_placeholder 0 100 (Or.inl (by decide))⟩

/-- C8: on a leaderboard of positive size `N`, the percentile is monotonically
non-increasing in the rank over `[1, N]`, rank 1 scores exactly 100, and rank
`N` scores `100 * (1 - (N - 1) / N)`, strictly positive for `N > 1`. -/
theorem computeStanding_percentile_monotone (N r1 r2 : ℤ)
    (h1 : 1 ≤ r1) (h12 : r1 ≤ r2) (h2N : r2 ≤ N) :
    (computeStanding r2 N).percentile ≤ (computeStanding r1 N).percentile
  ∧ (computeStanding 1 N).percentile = 100
  ∧ (computeStanding N N).percentile = 100 * (1 - ((N : ℚ) - 1) / (N : ℚ))
  ∧ (1 < N → 0 < (computeStanding N N).percentile) := by
  have hN : (0 : ℤ) < N := by omega
  have hr1 : (0 : ℤ) < r1 := by omega
  have hr2 : (0 : ℤ) < r2 := by omega
  have hNQ : (0 : ℚ) < (N : ℚ) := by exact_mod_cast hN
  have hN1Q : (1 : ℚ) ≤ (N : ℚ) := by exact_mod_cast hN
  rw [computeStanding_of_pos hr1 hN, computeStanding_of_pos hr2 hN,
    computeStanding_of_pos (by omega : (0 : ℤ) < 1) hN, computeStanding_of_pos hN hN]
  simp only [calculateStats]
  have hfrac0 : 0 ≤ ((N : ℚ) - 1) / (N : ℚ) := by
    apply div_nonneg _ hNQ.le; linarith
  have hfrac1 : ((N : ℚ) - 1) / (N : ℚ) ≤ 1 := by
    rw [div_le_one hNQ]; linarith
  refine ⟨?_, ?_, ?_, ?_⟩
  · have hr12Q : ((r1 : ℚ)) ≤ (r2 : ℚ) := by exact_mod_cast h12
    have h12Q : ((r1 : ℚ) - 1) / (N : ℚ) ≤ ((r2 : ℚ) - 1) / (N : ℚ) := by
      apply div_le_div_of_nonneg_right ?_ hNQ.le
      linarith
    have hkey : (1 - ((r2 : ℚ) - 1) / (N : ℚ)) * 100 ≤
        (1 - ((r1 : ℚ) - 1) / (N : ℚ)) * 100 := by nlinarith
    exact max_le_max le_rfl (min_le_min le_rfl hkey)
  · push_cast
    norm_num
  · have hlow : 0 ≤ (1 - ((N : ℚ) - 1) / (N : ℚ)) * 100 := by nlinarith
    have hup : (1 - ((N : ℚ) - 1) / (N : ℚ)) * 100 ≤ 100 := by nlinarith
    rw [min_eq_right hup, max_eq_right hlow]
    ring
  · intro hNgt
    have hNgtQ : (1 : ℚ) < (N : ℚ) := by exact_mod_cast hNgt
    have hfrac_lt : ((N : ℚ) - 1) / (N : ℚ) < 1 := by
      rw [div_lt_one hNQ]; linarith
    have hpos : 0 < (1 - ((N : ℚ) - 1) / (N : ℚ)) * 100 := by nlinarith
    exact lt_of_lt_of_le (lt_min (by norm_num) hpos) (le_max_right _ _)

/-- Witness for C8 on a 100-competitor leaderboard at ranks 2 and 7. -/
theorem computeStanding_percentile_monotone_witness :
    ((1 : ℤ) ≤ 2 ∧ (2 : ℤ) ≤ 7 ∧ (7 : ℤ) ≤ 100)
  ∧ ((computeStanding 7 100).percentile ≤ (computeStanding 2 100).percentile
  ∧ (computeStanding 1 100).percentile = 100
  ∧ (computeStanding 100 100).percentile = 100 * (1 - (((100 : ℤ) : ℚ) - 1) / ((100 : ℤ) : ℚ))
  ∧ (1 < (100 : ℤ) → 0 < (computeStanding 100 100).percentile)) :=
  ⟨⟨by decide, by decide, by decide⟩,
    computeStanding_percentile_monotone 100 2 7 (by decide) (by decide) (by decide)⟩

/-- C9 counterexample: a positive rank larger than the positive leaderboard
total drives `percentDownList` above 100 — the code never clamps it. -/
theorem computeStanding_percentDownList_exceeds :
    (computeStanding 2 1).percentDownList = 200
  ∧ ¬ (computeStanding 2 1).percentDownList ≤ 100 := by
  constructor <;> norm_num [computeStanding, calculateStats]

/-- C9 amended: for positive rank and total the percentile is always within
`[0, 100]` and `percentDownList` is non-negative; `percentDownList ≤ 100`
additionally needs `rank ≤ totalCompetitors`. -/
theorem computeStanding_bounds (rank total : ℤ) (hr : 0 < rank) (ht : 0 < total) :
    0 ≤ (computeStanding rank total).percentile
  ∧ (computeStanding rank total).percentile ≤ 100
  ∧ 0 ≤ (computeStanding rank total).percentDownList
  ∧ (rank ≤ total → (computeStanding rank total).percentDownList ≤ 100) := by
  have hrQ : (0 : ℚ) < (rank : ℚ) := by exact_mod_cast hr
  have htQ : (0 : ℚ) < (total : ℚ) := by exact_mod_cast ht
  rw [computeStanding_of_pos hr ht]
  simp only [calculateStats]
  refine ⟨le_max_left _ _, max_le (by norm_num) (min_le_left _ _), ?_, ?_⟩
  · positivity
  · intro hle
    have hleQ : ((rank : ℚ)) ≤ (total : ℚ) := by exact_mod_cast hle
    have hdiv : (rank : ℚ) / (total : ℚ) ≤ 1 := by rw [div_le_one htQ]; exact hleQ
    nlinarith

/-- Witness for C9's amended bounds at `computeStanding(50, 100)`. -/
theorem computeStanding_bounds_witness :
    ((0 : ℤ) < 50 ∧ (0 : ℤ) < 100)
  ∧ (0 ≤ (computeStanding 50 100).percentile
  ∧ (computeStanding 50 100).percentile ≤ 100
  ∧ 0 ≤ (computeStanding 50 100).percentDownList
  ∧ ((50 : ℤ) ≤ 100 → (computeStanding 50 100).percentDownList ≤ 100)) :=
  ⟨⟨by decide, by decide⟩, computeStanding_bounds 50 100 (by decide) (by decide)⟩

/-- C4 counterexample: the national-rank band at percentile exactly 0 (a
positive rank whose leaderboard-total lookup failed) is `top 100%`, not the
neutral `ranked` label the continental and world branches fall back to. -/
theorem nrBand_zero_percentile_not_ranked :
    nrBandDisplay 7 0 = some (Band.topPct 100)
  ∧ nrBandDisplay 7 0 ≠ some Band.ranked := by
  constructor
  · norm_num [nrBandDisplay]
  · norm_num [nrBandDisplay]
    intro h
    exact Band.noConfusion h

/-- C4 amended: for positive percentile the three scopes band identically
(99.9 and 99 thresholds, then the residual top percentage); at percentile
exactly 0 the continental and world scopes fall back to the neutral `ranked`
label but the national scope shows `top 100%`. -/
theorem bandDisplay_amended (rank : ℤ) (q : ℚ) (hrank : 0 < rank) (hq : 0 < q) :
    nrBandDisplay rank q = crWrBandDisplay rank q
  ∧ ((999 : ℚ) / 10 ≤ q → crWrBandDisplay rank q = some Band.top01)
  ∧ (99 ≤ q → q < (999 : ℚ) / 10 → crWrBandDisplay rank q = some Band.top1)
  ∧ (q < 99 → crWrBandDisplay rank q = some (Band.topPct (100 - q)))
  ∧ crWrBandDisplay rank 0 = some Band.ranked
  ∧ nrBandDisplay rank 0 = some (Band.topPct 100) := by
  refine ⟨?_, ?_, ?_, ?_, ?_, ?_⟩
  · by_cases h1 : (999 : ℚ) / 10 ≤ q
    · simp [nrBandDisplay, crWrBandDisplay, hrank, h1]
    · by_cases h2 : (99 : ℚ) ≤ q
      · simp [nrBandDisplay, crWrBandDisplay, hrank, h1, h2]
      · simp [nrBandDisplay, crWrBandDisplay, hrank, h1, h2, hq]
  · intro h1
    simp [crWrBandDisplay, hrank, h1]
  · intro h2 hlt
    have h1 : ¬ ((999 : ℚ) / 10 ≤ q) := by linarith
    simp [crWrBandDisplay, hrank, h1, h2]
  · intro h99
    have h1 : ¬ ((999 : ℚ) / 10 ≤ q) := by linarith
    have h2 : ¬ ((99 : ℚ) ≤ q) := by linarith
    simp [crWrBandDisplay, hrank, h1, h2, hq]
  · norm_num [crWrBandDisplay, hrank]
  · norm_num [nrBandDisplay, hrank]

/-- Witness for C4's amended banding at a rank of 1 and percentile 51. -/
theorem bandDisplay_amended_witness :
    ((0 : ℤ) < 1 ∧ (0 : ℚ) < 51)
  ∧ (nrBandDisplay 1 51 = crWrBandDisplay 1 51
  ∧ ((999 : ℚ) / 10 ≤ 51 → crWrBandDisplay 1 51 = some Band.top01)
  ∧ (99 ≤ (51 : ℚ) → (51 : ℚ) < (999 : ℚ) / 10 → crWrBandDisplay 1 51 = some Band.top1)
  ∧ ((51 : ℚ) < 99 → crWrBandDisplay 1 51 = some (Band.topPct (100 - 51)))
  ∧ crWrBandDisplay 1 0 = some Band.ranked
  ∧ nrBandDisplay 1 0 = some (Band.topPct 100)) :=
  ⟨⟨by decide, by norm_num⟩, bandDisplay_amended 1 51 (by decide) (by norm_num)⟩

/-- C10: `getBetterRank` treats a stored rank of 0 exactly like an absent
rank — against any positive rank the side holding 0 loses, and 0 against 0
is a tie. -/
theorem getBetterRank_zero_like_absent (r : ℕ) (hr : 0 < r) :
    (∀ x : Option ℕ, getBetterRank (some 0) x = getBetterRank none x)
  ∧ (∀ x : Option ℕ, getBetterRank x (some 0) = getBetterRank x none)
  ∧ getBetterRank (some 0) (some r) = Winner.player2
  ∧ getBetterRank (some r) (some 0) = Winner.player1
  ∧ getBetterRank (some 0) (some 0) = Winner.tie := by
  have hr0 : r ≠ 0 := Nat.pos_iff_ne_zero.mp hr
  refine ⟨?_, ?_, ?_, ?_, ?_⟩
  · intro x
    cases x <;> simp [getBetterRank, jsFalsy]
  · intro x
    cases x <;> simp [getBetterRank, jsFalsy]
  · simp [getBetterRank, jsFalsy, hr0]
  · simp [getBetterRank, jsFalsy, hr0]
  · simp [getBetterRank, jsFalsy]

/-- Witness for C10 against the positive rank 5. -/
theorem getBetterRank_zero_like_absent_witness :
    0 < 5
  ∧ ((∀ x : Option ℕ, getBetterRank (some 0) x = getBetterRank none x)
  ∧ (∀ x : Option ℕ, getBetterRank x (some 0) = getBetterRank x none)
  ∧ getBetterRank (some 0) (some 5) = Winner.player2
  ∧ getBetterRank (some 5) (some 0) = Winner.player1
  ∧ getBetterRank (some 0) (some 0) = Winner.tie) :=
  ⟨by decide, getBetterRank_zero_like_absent 5 (by decide)⟩

/-! The `forEach` loop of `calculatePoints` as a sum of per-event
contributions. -/

lemma foldl_pointsStep (p1 p2 : PlayerInfo) (l : List String) : ∀ acc : PointsAcc,
    l.foldl (pointsStep p1 p2) acc =
      { fairPoints1 := acc.fairPoints1 + (l.map fun e =>
          (fairEventPts (p1.personal_records.lookup e) (p2.personal_records.lookup e)).1).sum
        fairPoints2 := acc.fairPoints2 + (l.map fun e =>
          (fairEventPts (p1.personal_records.lookup e) (p2.personal_records.lookup e)).2).sum
        unfairPoints1 := acc.unfairPoints1 + (l.map fun e =>
          (unfairEventPts (p1.personal_records.lookup e) (p2.personal_records.lookup e)).1).sum
        unfairPoints2 := acc.unfairPoints2 + (l.map fun e =>
          (unfairEventPts (p1.personal_records.lookup e) (p2.personal_records.lookup e)).2).sum
        fairEvents := acc.fairEvents ++ l.filter (fun e =>
          (p1.personal_records.lookup e).isSome && (p2.personal_records.lookup e).isSome)
        unfairEvents := acc.unfairEvents ++ l } := by
  induction l with
  | nil =>
    intro acc
    simp
  | cons e l ih =>
    intro acc
    rw [List.foldl_cons, ih]
    simp only [pointsStep, List.map_cons, List.sum_cons, List.filter_cons]
    by_cases hc : ((p1.personal_records.lookup e).isSome &&
        (p2.personal_records.lookup e).isSome) = true
    · simp [hc, Nat.add_assoc, List.append_assoc]
    · simp [hc, Nat.add_assoc, List.append_assoc]

lemma calculatePoints_eq (p1 p2 : PlayerInfo) :
    calculatePoints p1 p2 =
      { fair :=
          { player1 := ((getAllEvents p1 p2).map fun e =>
              (fairEventPts (p1.personal_records.lookup e) (p2.personal_records.lookup e)).1).sum
            player2 := ((getAllEvents p1 p2).map fun e =>
              (fairEventPts (p1.personal_records.lookup e) (p2.personal_records.lookup e)).2).sum
            events := sharedEvents p1 p2 }
        unfair :=
          { player1 := ((getAllEvents p1 p2).map fun e =>
              (unfairEventPts (p1.personal_records.lookup e) (p2.personal_records.lookup e)).1).sum
            player2 := ((getAllEvents p1 p2).map fun e =>
              (unfairEventPts (p1.personal_records.lookup e) (p2.personal_records.lookup e)).2).sum
            events := getAllEvents p1 p2 } } := by
  simp [calculatePoints, foldl_pointsStep, sharedEvents]

lemma sum_map_filter_of_zero {α : Type} (p : α → Bool) (g : α → ℕ)
    (h : ∀ a, p a = false → g a = 0) :
    ∀ l : List α, ((l.filter p).map g).sum = (l.map g).sum := by
  intro l
  induction l with
  | nil => simp
  | cons a l ih =>
    by_cases hpa : p a = true
    · simp [List.filter_cons, hpa, ih]
    · have hz : g a = 0 := h a (by simpa using hpa)
      simp [List.filter_cons, hpa, ih, hz]

lemma fairEventPts_eq_zero {o1 o2 : Option PersonalRecord}
    (h : (o1.isSome && o2.isSome) = false) : fairEventPts o1 o2 = (0, 0) := by
  cases o1 <;> cases o2 <;> simp_all [fairEventPts]

/-- C5: the fair tally only draws points from events present in both
players' records — its events list is exactly the shared events, and both
totals are sums over the shared events of the per-event fair award (a single
duel when both sides hold a single, an average duel when both sides hold an
average, ties awarding nothing). -/
theorem calculatePoints_fair_restricted (p1 p2 : PlayerInfo) :
    (calculatePoints p1 p2).fair.events = sharedEvents p1 p2
  ∧ (calculatePoints p1 p2).fair.player1 = ((sharedEvents p1 p2).map fun e =>
      (fairEventPts (p1.personal_records.lookup e) (p2.personal_records.lookup e)).1).sum
  ∧ (calculatePoints p1 p2).fair.player2 = ((sharedEvents p1 p2).map fun e =>
      (fairEventPts (p1.personal_records.lookup e) (p2.personal_records.lookup e)).2).sum := by
  have hz1 : ∀ e, ((p1.personal_records.lookup e).isSome &&
      (p2.personal_records.lookup e).isSome) = false →
      (fairEventPts (p1.personal_records.lookup e) (p2.personal_records.lookup e)).1 = 0 := by
    intro e he
    rw [fairEventPts_eq_zero he]
  have hz2 : ∀ e, ((p1.personal_records.lookup e).isSome &&
      (p2.personal_records.lookup e).isSome) = false →
      (fairEventPts (p1.personal_records.lookup e) (p2.personal_records.lookup e)).2 = 0 := by
    intro e he
    rw [fairEventPts_eq_zero he]
  rw [calculatePoints_eq]
  refine ⟨rfl, ?_, ?_⟩
  · exact (sum_map_filter_of_zero _ _ hz1 (getAllEvents p1 p2)).symm
  · exact (sum_map_filter_of_zero _ _ hz2 (getAllEvents p1 p2)).symm

/-- C6: the unfair tally spans the union of both players' events; an event
held by exactly one player awards that player one uncontested point per
discipline held, while an event held by both contributes exactly the fair
per-event comparison. -/
theorem calculatePoints_unfair_union (p1 p2 : PlayerInfo) :
    (calculatePoints p1 p2).unfair.events = getAllEvents p1 p2
  ∧ (calculatePoints p1 p2).unfair.player1 = ((getAllEvents p1 p2).map fun e =>
      (unfairEventPts (p1.personal_records.lookup e) (p2.personal_records.lookup e)).1).sum
  ∧ (calculatePoints p1 p2).unfair.player2 = ((getAllEvents p1 p2).map fun e =>
      (unfairEventPts (p1.personal_records.lookup e) (p2.personal_records.lookup e)).2).sum
  ∧ (∀ e1 : PersonalRecord, unfairEventPts (some e1) none = (soloDisciplinePts e1, 0))
  ∧ (∀ e2 : PersonalRecord, unfairEventPts none (some e2) = (0, soloDisciplinePts e2))
  ∧ (∀ e1 e2 : PersonalRecord,
      unfairEventPts (some e1) (some e2) = fairEventPts (some e1) (some e2)) := by
  rw [calculatePoints_eq]
  exact ⟨rfl, rfl, rfl, fun _ => rfl, fun _ => rfl, fun _ _ => rfl⟩

lemma getBetterRank_self (r : ℕ) : getBetterRank (some r) (some r) = Winner.tie := by
  by_cases h : r = 0 <;> simp [getBetterRank, jsFalsy, h]

lemma duelPts_self (s : Option RankDetail) : duelPts s s = (0, 0) := by
  cases s <;> simp [duelPts, getBetterRank_self]

lemma fairEventPts_self (o : Option PersonalRecord) : fairEventPts o o = (0, 0) := by
  cases o <;> simp [fairEventPts, duelPts_self]

lemma unfairEventPts_self (o : Option PersonalRecord) : unfairEventPts o o = (0, 0) := by
  cases o <;> simp [unfairEventPts, duelPts_self]

/-- C7: comparing a player against an identical copy yields equal fair
totals on both sides and equal unfair totals on both sides. -/
theorem calculatePoints_self_balanced (p : PlayerInfo) :
    (calculatePoints p p).fair.player1 = (calculatePoints p p).fair.player2
  ∧ (calculatePoints p p).unfair.player1 = (calculatePoints p p).unfair.player2 := by
  rw [calculatePoints_eq]
  constructor
  · simp [fairEventPts_self]
  · simp [unfairEventPts_self]

/-! C3: the two normalizers on a payload with zero usable event records. -/

/-- A raw payload with a name but an empty `rank` object — the spec's
concrete scenario `normalize({name:"X", rank:{}}, null)`. -/
def rawNoRecords : RawPlayer :=
  { name := "X", country := none, countryIso2 := none, continent := "Asia",
    id := "2020XXXX01", rank := some { singles := none, averages := none } }

/-- C3 counterexample: the compare page's normalizer accepts a payload with
zero usable event records and returns a player whose `personal_records`
mapping is empty instead of failing with `NoRecordsFound`. -/
theorem fetchPlayerData_empty_records_ok :
    fetchPlayerData "2020XXXX01" rawNoRecords none =
      Except.ok (transformPlayer rawNoRecords none)
  ∧ (transformPlayer rawNoRecords none).personal_records = [] := by
  constructor
  · rfl
  · rfl

/-- C3 amended: on a named payload with zero usable event records the
single-player analyzer's normalizer fails with the no-records error, while
the compare page's normalizer succeeds with an empty `personal_records`
mapping. -/
theorem normalizer_empty_records_behavior (wcaId : String) (player : RawPlayer)
    (avatarUrl : Option String) (hname : player.name ≠ "")
    (hempty : buildPersonalRecords player.rank = []) :
    fetchStatsNormalize player avatarUrl =
      Except.error "No competition records found for this player."
  ∧ fetchPlayerData wcaId player avatarUrl =
      Except.ok (transformPlayer player avatarUrl) := by
  constructor
  · simp [fetchStatsNormalize, hname, transformPlayer, hempty]
  · simp [fetchPlayerData, hname]

/-- Witness for C3's amended claim at the concrete empty-rank payload. -/
theorem normalizer_empty_records_behavior_witness :
    (rawNoRecords.name ≠ "" ∧ buildPersonalRecords rawNoRecords.rank = [])
  ∧ (fetchStatsNormalize rawNoRecords none =
      Except.error "No competition records found for this player."
  ∧ fetchPlayerData "2020XXXX01" rawNoRecords none =
      Except.ok (transformPlayer rawNoRecords none)) :=
  ⟨⟨by decide, rfl⟩,
    normalizer_empty_records_behavior "2020XXXX01" rawNoRecords none (by decide) rfl⟩

end Cubify
